import Mathlib

/-!
# Verification of the `grass` keyword-search bot

A shallow embedding of the repository's core logic:

* the data model (`SearchResult`),
* the platform search adapters (`bskySearch`, `redditSearch`, `hnSearch`)
  as pure functions of the parsed HTTP response,
* the Bluesky construction-time retry/backoff loop (`bskyAuthLoop`),
* the SQLite storage adapter (`sqliteSave`, `sqliteExistsRes`, ...),
* the orchestrator `Bot.Run` (`botRun`) as a state-passing interpreter over
  abstract searcher/storer/notifier collaborators, producing a trace.

HTTP transport and JSON decoding are outside the embedding: each adapter is
modelled from the point where the response has been decoded into the struct
the Go code decodes into.  Wall-clock time is modelled by a `clock : Nat → Int`
indexed by a tick counter that advances at every collaborator call.
-/

namespace Grass

/-- Errors are carried as plain messages, like Go `error` values. -/
abbrev Err := String

/-- The type `search.SearchResult` from `search/search.go`. -/
structure SearchResult where
  platform : String
  keyword : String
  title : String
  url : String
  timestamp : Int
  content : String
deriving Repr, DecidableEq

/-! ## Bluesky searcher (`search/bsky.go`, retry/degradation variant) -/

/-- Outcome of one `authenticate` call: HTTP 429, another failure, or a token. -/
inductive AuthResult where
  | rateLimited
  | otherFailure (msg : Err)
  | success (token : String)
deriving Repr, DecidableEq

/-- The retry loop inside `NewBlueskySearcher`: Go iterates `i = 0 .. maxRetries-1`;
on a 429 it sleeps `5*(i+1)` seconds and retries; on any other error it returns
that error; if all attempts are rate-limited it falls through to a degraded
searcher whose access token is empty.  `attempt` is the Go loop index `i`,
`remaining` the attempts left; the returned list records the sleep durations. -/
def bskyAuthLoop (auth : Nat → AuthResult) (attempt remaining : Nat)
    (sleeps : List Nat) : Except Err (String × List Nat) :=
  match remaining with
  | 0 => .ok ("", sleeps)
  | n + 1 =>
    match auth attempt with
    | .success tok => .ok (tok, sleeps)
    | .rateLimited => bskyAuthLoop auth (attempt + 1) n (sleeps ++ [5 * (attempt + 1)])
    | .otherFailure msg => .error ("failed to authenticate with Bluesky: " ++ msg)

/-- The constant `maxRetries := 3` in `NewBlueskySearcher`. -/
def bskyMaxRetries : Nat := 3

/-- The body of `NewBlueskySearcher` after the credential check: returns the access token
(possibly empty, i.e. degraded) and the backoff sleeps performed. -/
def newBlueskySearcher (auth : Nat → AuthResult) : Except Err (String × List Nat) :=
  bskyAuthLoop auth 0 bskyMaxRetries []

/-- One decoded post of the Bluesky search response.  `createdAt` is the result
of parsing `Record.CreatedAt` as RFC3339 into epoch seconds; `none` stands for
a missing or unparsable field (both are skipped by the Go loop). -/
structure BskyPost where
  uri : String
  displayName : String
  createdAt : Option Int
  text : String
deriving Repr, DecidableEq

/-- The decoded Bluesky search response: HTTP status and, when the body decoded,
the posts.  `decoded = false` models a JSON decoding failure. -/
structure BskyResponse where
  status : Nat
  decoded : Bool
  posts : List BskyPost
deriving Repr, DecidableEq

/-- Go `strings.Split` on a single-character separator, on character lists. -/
def goSplit (sep : Char) : List Char → List (List Char)
  | [] => [[]]
  | c :: rest =>
    match goSplit sep rest with
    | [] => [[]]
    | g :: gs => if c == sep then [] :: g :: gs else (c :: g) :: gs

/-- The function `convertAtURLToHTTPS` from `search/bsky.go`: split on `/`; if fewer than 5
parts return the input unchanged, else build the profile/post URL from parts
2 (the DID) and 4 (the post id). -/
def convertAtURLToHTTPS (atURL : String) : String :=
  let parts := (goSplit '/' atURL.data).map String.mk
  if parts.length < 5 then atURL
  else "https://bsky.app/profile/" ++ parts[2]! ++ "/post/" ++ parts[4]!

/-- The result-conversion loop of `BlueskySearcher.Search`. -/
def bskyConvert (keyword : String) (afterEpochSecs : Int) :
    List BskyPost → List SearchResult
  | [] => []
  | post :: rest =>
    match post.createdAt with
    | none => bskyConvert keyword afterEpochSecs rest
    | some created =>
      if afterEpochSecs < created then
        { platform := "Bluesky", keyword := keyword,
          title := "Post by " ++ post.displayName,
          url := convertAtURLToHTTPS post.uri,
          timestamp := created, content := "" } ::
          bskyConvert keyword afterEpochSecs rest
      else
        bskyConvert keyword afterEpochSecs rest

/-- The method `BlueskySearcher.Search` (retry/degradation variant): with an empty access
token, or on HTTP 429, or on any non-200 status, or on a decode failure, it
returns an empty list with no error; otherwise it converts and filters posts. -/
def bskySearch (accessToken keyword : String) (afterEpochSecs : Int)
    (resp : BskyResponse) : Except Err (List SearchResult) :=
  if accessToken == "" then .ok []
  else if resp.status == 429 then .ok []
  else if resp.status != 200 then .ok []
  else if !resp.decoded then .ok []
  else .ok (bskyConvert keyword afterEpochSecs resp.posts)

/-! ## Reddit searcher (`search/reddit.go`) -/

/-- One decoded child of the Reddit search response (`data.children[].data`).
`createdUtc` is `int64(post.CreatedAt)` after the Go float-to-int conversion. -/
structure RedditPost where
  title : String
  permalink : String
  createdUtc : Int
deriving Repr, DecidableEq

/-- The per-post conversion of `RedditSearcher.Search`: the emitted `Timestamp`
is `timestamp := time.Now().Unix()`, taken once before the loop. -/
def redditConvert (keyword : String) (now : Int) (post : RedditPost) : SearchResult :=
  { platform := "Reddit", keyword := keyword, title := post.title,
    url := "https://www.reddit.com" ++ post.permalink,
    timestamp := now, content := "" }

/-- The result loop of `RedditSearcher.Search`: keep posts with
`int64(post.CreatedAt) > afterEpochSecs`, stamping each with `now`. -/
def redditSearchResults (keyword : String) (afterEpochSecs now : Int)
    (children : List RedditPost) : List SearchResult :=
  match children with
  | [] => []
  | post :: rest =>
    if afterEpochSecs < post.createdUtc then
      redditConvert keyword now post :: redditSearchResults keyword afterEpochSecs now rest
    else
      redditSearchResults keyword afterEpochSecs now rest

/-! ## HackerNews searcher (`search/hackernews.go`, story/comment variant) -/

/-- The request URL built by `HackerNewsSearcher.Search`: the strictly-newer
filter is delegated to the Algolia API via `numericFilters=created_at_i>since`. -/
def hnApiURL (keyword : String) (afterEpochSecs : Int) : String :=
  "https://hn.algolia.com/api/v1/search_by_date?query=" ++ keyword ++
    "&tags=(story,comment)&numericFilters=created_at_i>" ++ toString afterEpochSecs

/-- One decoded hit of the Algolia response. -/
structure HNHit where
  title : String
  url : String
  objectID : String
  createdAt : Int
  commentText : String
  storyTitle : String
  tags : String
deriving Repr, DecidableEq

/-- Boolean prefix test on character lists (for modelling `strings.Contains`). -/
def charsHavePre : List Char → List Char → Bool
  | [], _ => true
  | _ :: _, [] => false
  | a :: as, b :: bs => a == b && charsHavePre as bs

/-- Boolean substring test on character lists. -/
def charsHaveSub (sub : List Char) : List Char → Bool
  | [] => charsHavePre sub []
  | b :: bs => charsHavePre sub (b :: bs) || charsHaveSub sub bs

/-- Go `strings.Contains s sub` modelled on the underlying character lists. -/
def goStringsContains (s sub : String) : Bool :=
  charsHaveSub sub.data s.data

/-- The per-hit body of `HackerNewsSearcher.Search`'s result loop: skip hits
without an `objectID`; comments get a `Comment on:` title and the comment
text as content; skip hits whose title came out empty.  `none` encodes the
loop's `continue`. -/
def hnConvertHit (keyword : String) (now : Int) (hit : HNHit) :
    Option SearchResult :=
  if hit.objectID == "" then none
  else
    let hnURL := "https://news.ycombinator.com/item?id=" ++ hit.objectID
    let isComment := goStringsContains hit.tags "comment"
    let title :=
      if isComment && hit.storyTitle != "" then "Comment on: " ++ hit.storyTitle
      else hit.title
    let content := if isComment then hit.commentText else ""
    if title == "" then none
    else some { platform := "HackerNews", keyword := keyword, title := title,
                url := hnURL, timestamp := now, content := content }

/-- The result loop of `HackerNewsSearcher.Search`: every emitted result is
stamped with `timestamp := time.Now().Unix()` taken once before the loop.  No
filtering on `createdAt` happens here. -/
def hnSearchResults (keyword : String) (now : Int) (hits : List HNHit) :
    List SearchResult :=
  hits.filterMap (hnConvertHit keyword now)

/-! ## SQLite storage adapter (`storage/sqlite.go`)

The `search_results` table declares `URL TEXT PRIMARY KEY`, so a row is keyed
by URL alone; `Save` uses `ON CONFLICT(URL) DO NOTHING`, while `Exists` filters
on `Platform = ? AND URL = ?`.  The model keeps the table as a list of rows
whose URLs are pairwise distinct (the primary-key invariant is maintained by
`sqliteSave` itself). -/

/-- One row of the `search_results` table. -/
structure SqliteRow where
  platform : String
  keyword : String
  title : String
  url : String
  timestamp : Int
deriving Repr, DecidableEq

/-- The method `SQLiteStorer.Save`: `INSERT ... ON CONFLICT(URL) DO NOTHING` — if any row
already holds this URL, the statement is a no-op and reports success. -/
def sqliteSave (rows : List SqliteRow) (r : SearchResult) : List SqliteRow :=
  if rows.any (fun row => row.url == r.url) then rows
  else rows ++ [{ platform := r.platform, keyword := r.keyword,
                  title := r.title, url := r.url, timestamp := r.timestamp }]

/-- The method `SQLiteStorer.Exists`: `SELECT EXISTS(... WHERE Platform = ? AND URL = ?)`. -/
def sqliteExistsRes (rows : List SqliteRow) (platform url : String) : Bool :=
  rows.any (fun row => row.platform == platform && row.url == url)

/-! ## The orchestrator (`bot/bot.go`, `Bot.Run`)

`Run` is embedded as a total state-passing function over abstract
collaborators.  A searcher is its platform name plus a search function; the
storer is a record of four operations over an abstract state `σ`, each of
which may fail (this quantifies over every `Storer` implementation and every
failure pattern); a notifier is a function that may fail.  Wall-clock time is
`clock : Nat → Int` applied to a tick counter that advances by one at every
collaborator call, so time can pass during a turn.  `time.Now()` in the Go
source samples the clock at the current tick.  The run also produces a trace
recording, per searcher turn, what happened. -/

/-- An abstract `search.Searcher`. -/
structure Searcher where
  platform : String
  search : String → Int → Except Err (List SearchResult)

/-- An abstract `storage.Storer` over state `σ`. -/
structure StorerOps (σ : Type) where
  getLastSearchTime : σ → String → Except Err Int
  existsRes : σ → String → String → Except Err Bool
  save : σ → SearchResult → Except Err σ
  setLastSearchTime : σ → String → Int → Except Err σ

/-- An abstract `bot.Notifier`. -/
abbrev Notifier := SearchResult → Except Err Unit

/-- A `Bot` configuration: `bot.NewBot(searchers, storer, notifiers)` plus the
clock through which `time.Now()` is observed. -/
structure BotEnv (σ : Type) where
  searchers : List Searcher
  storer : StorerOps σ
  notifiers : List Notifier
  clock : Nat → Int

/-- One recorded `Notify` invocation: which notifier (by configuration index),
with which result, and whether it succeeded. -/
structure NotifyEntry where
  idx : Nat
  result : SearchResult
  ok : Bool
deriving Repr, DecidableEq

/-- The inner notifier loop of `Bot.Run`: every configured notifier is called
in order; a failure is only logged. -/
def notifyLoop (notifiers : List Notifier) (r : SearchResult) (idx : Nat) :
    List NotifyEntry :=
  match notifiers with
  | [] => []
  | n :: rest =>
    { idx := idx, result := r,
      ok := match n r with | .ok _ => true | .error _ => false } ::
      notifyLoop rest r (idx + 1)

/-- What `Bot.Run` did with one result. -/
inductive ROutcome where
  | checkFailed (e : Err)
  | alreadyExists
  | saveFailed (e : Err)
  | saved
deriving Repr, DecidableEq

/-- Trace of one result's processing: the result, the branch taken, and the
notifier invocations (empty unless the result was newly saved). -/
structure RTrace where
  result : SearchResult
  outcome : ROutcome
  notifications : List NotifyEntry
deriving Repr, DecidableEq

/-- The per-result body of `Bot.Run`'s inner loop: existence check
(`continue` on error or on an existing record), save (`continue` on error),
then the notifier fan-out.  Ticks: the existence check costs one call, the
save one more, each notifier one more. -/
def processResult {σ : Type} (ops : StorerOps σ) (notifiers : List Notifier)
    (s : σ) (tick : Nat) (r : SearchResult) : σ × Nat × RTrace :=
  match ops.existsRes s r.platform r.url with
  | .error e => (s, tick + 1, ⟨r, .checkFailed e, []⟩)
  | .ok true => (s, tick + 1, ⟨r, .alreadyExists, []⟩)
  | .ok false =>
    match ops.save s r with
    | .error e => (s, tick + 2, ⟨r, .saveFailed e, []⟩)
    | .ok s1 =>
      (s1, tick + 2 + notifiers.length, ⟨r, .saved, notifyLoop notifiers r 0⟩)

/-- The inner loop of `Bot.Run` over the results of one search. -/
def processList {σ : Type} (ops : StorerOps σ) (notifiers : List Notifier) :
    σ → Nat → List SearchResult → σ × Nat × List RTrace
  | s, tick, [] => (s, tick, [])
  | s, tick, r :: rest =>
    let p := processResult ops notifiers s tick r
    let q := processList ops notifiers p.1 p.2.1 rest
    (q.1, q.2.1, p.2.2 :: q.2.2)

/-- Trace of one platform's turn.  `readFailed` and `searchFailed` are the two
`continue` branches (no watermark write happens on them); `processed` records
the per-result traces, the tick at which `time.Now()` was sampled for the
watermark write, the value written, and whether the write succeeded. -/
inductive TurnResult where
  | readFailed (e : Err)
  | searchFailed (e : Err)
  | processed (results : List RTrace) (writeTick : Nat) (writeValue : Int)
      (writeOk : Bool)
deriving Repr, DecidableEq

/-- Trace of one searcher's turn: its platform, the tick at which the turn
began, and what happened. -/
structure TTrace where
  platform : String
  startTick : Nat
  turn : TurnResult
deriving Repr, DecidableEq

/-- One turn of `Bot.Run`: read the watermark (`continue` on error), search
(`continue` on error), process every result, then
`SetLastSearchTime(platform, time.Now().Unix())`, whose failure is only
logged. -/
def runTurn {σ : Type} (ops : StorerOps σ) (notifiers : List Notifier)
    (clock : Nat → Int) (keyword : String) (sr : Searcher) (s : σ)
    (tick : Nat) : σ × Nat × TTrace :=
  match ops.getLastSearchTime s sr.platform with
  | .error e => (s, tick + 1, ⟨sr.platform, tick, .readFailed e⟩)
  | .ok lastSearchTime =>
    match sr.search keyword lastSearchTime with
    | .error e => (s, tick + 2, ⟨sr.platform, tick, .searchFailed e⟩)
    | .ok results =>
      let p := processList ops notifiers s (tick + 2) results
      let v := clock p.2.1
      match ops.setLastSearchTime p.1 sr.platform v with
      | .error _ => (p.1, p.2.1 + 1, ⟨sr.platform, tick, .processed p.2.2 p.2.1 v false⟩)
      | .ok s2 => (s2, p.2.1 + 1, ⟨sr.platform, tick, .processed p.2.2 p.2.1 v true⟩)

/-- The outer loop of `Bot.Run` over the configured searchers. -/
def runLoop {σ : Type} (ops : StorerOps σ) (notifiers : List Notifier)
    (clock : Nat → Int) (keyword : String) :
    List Searcher → σ → Nat → σ × Nat × List TTrace
  | [], s, tick => (s, tick, [])
  | sr :: rest, s, tick =>
    let p := runTurn ops notifiers clock keyword sr s tick
    let q := runLoop ops notifiers clock keyword rest p.1 p.2.1
    (q.1, q.2.1, p.2.2 :: q.2.2)

/-- The final state and trace of one `Bot.Run(keyword)` invocation. -/
structure RunOut (σ : Type) where
  store : σ
  tick : Nat
  turns : List TTrace

/-- The method `Bot.Run(keyword)`: a total function — the Go method has no return value
and no fatal path; every collaborator failure is absorbed inside the loop. -/
def botRun {σ : Type} (env : BotEnv σ) (keyword : String) (s : σ) : RunOut σ :=
  let p := runLoop env.storer env.notifiers env.clock keyword env.searchers s 0
  ⟨p.1, p.2.1, p.2.2⟩

/-- The result traces of a turn (empty when the read or the search failed). -/
def resultTraces (t : TTrace) : List RTrace :=
  match t.turn with
  | .processed rts _ _ _ => rts
  | _ => []

/-- How many watermark writes a turn attempted: exactly one in the
`processed` case, none when the read or the search failed. -/
def turnWriteCount (t : TTrace) : Nat :=
  match t.turn with
  | .processed _ _ _ _ => 1
  | _ => 0

/-- All notifier invocations of one turn, in order. -/
def turnNotifications (t : TTrace) : List NotifyEntry :=
  (resultTraces t).flatMap (·.notifications)

/-- All notifier invocations of a run, in order. -/
def runNotifications {σ : Type} (out : RunOut σ) : List NotifyEntry :=
  out.turns.flatMap turnNotifications

/-! ## An ideal storer

A concrete always-succeeding `Storer` keyed exactly as the spec's contract
demands: the dedup index by `(platform, url)` (as the DynamoDB adapter's
partition/sort key pair), the watermark index by platform.  Insertion is at
the head; lookup takes the first match, so a later insert of the same key
would shadow an earlier one. -/

/-- State of the ideal storer. -/
structure IdealStore where
  saved : List ((String × String) × SearchResult)
  marks : List (String × Int)
deriving Repr, DecidableEq

/-- Look up a dedup-index entry by its `(platform, url)` key. -/
def lookupSaved (l : List ((String × String) × SearchResult))
    (platform url : String) : Option SearchResult :=
  (l.find? (fun e => e.1.1 == platform && e.1.2 == url)).map (·.2)

/-- Look up a watermark; absence means epoch 0. -/
def getMark (l : List (String × Int)) (platform : String) : Int :=
  ((l.find? (fun e => e.1 == platform)).map (·.2)).getD 0

/-- The ideal storer's operations. -/
def idealStorer : StorerOps IdealStore where
  getLastSearchTime s p := .ok (getMark s.marks p)
  existsRes s p u := .ok (lookupSaved s.saved p u).isSome
  save s r := .ok { s with saved := ((r.platform, r.url), r) :: s.saved }
  setLastSearchTime s p v := .ok { s with marks := (p, v) :: s.marks }

/-- The ideal storer with a `Save` that always fails, for exercising the
save-failure path of `Bot.Run`. -/
def failSaveStorer : StorerOps IdealStore :=
  { idealStorer with save := fun _ _ => .error "save failed" }

/-! ## Lemmas about the searcher adapters -/

/-- Every result kept by the Bluesky conversion loop carries a timestamp
strictly above the watermark: the loop filters on `createdTime.Unix() >
afterEpochSecs` and emits that same value as the timestamp. -/
theorem bskyConvert_timestamp_gt {keyword : String} {since : Int}
    {posts : List BskyPost} {r : SearchResult}
    (h : r ∈ bskyConvert keyword since posts) : since < r.timestamp := by
  induction posts with
  | nil => simp [bskyConvert] at h
  | cons post rest ih =>
    rw [bskyConvert] at h
    split at h
    · exact ih h
    · split at h
      · rcases List.mem_cons.mp h with heq | hrest
        · subst heq
          rename_i hlt
          exact hlt
        · exact ih hrest
      · exact ih h

/-- Every result kept by the Reddit conversion loop comes from a child whose
`created_utc` is strictly above the watermark, converted with the shared
wall-clock timestamp. -/
theorem redditSearchResults_from_strict {keyword : String} {since now : Int}
    {children : List RedditPost} {r : SearchResult}
    (h : r ∈ redditSearchResults keyword since now children) :
    ∃ c ∈ children, since < c.createdUtc ∧ r = redditConvert keyword now c := by
  induction children with
  | nil => simp [redditSearchResults] at h
  | cons c rest ih =>
    rw [redditSearchResults] at h
    by_cases hlt : since < c.createdUtc
    · rw [if_pos hlt] at h
      rcases List.mem_cons.mp h with heq | hrest
      · exact ⟨c, List.mem_cons_self c rest, hlt, heq⟩
      · obtain ⟨c1, hc1, hlt1, heq1⟩ := ih hrest
        exact ⟨c1, List.mem_cons_of_mem c hc1, hlt1, heq1⟩
    · rw [if_neg hlt] at h
      obtain ⟨c1, hc1, hlt1, heq1⟩ := ih h
      exact ⟨c1, List.mem_cons_of_mem c hc1, hlt1, heq1⟩

/-- Every result kept by the Reddit conversion loop is stamped with the shared
wall-clock `now`, not with the post's creation time. -/
theorem redditSearchResults_timestamp {keyword : String} {since now : Int}
    {children : List RedditPost} {r : SearchResult}
    (h : r ∈ redditSearchResults keyword since now children) : r.timestamp = now := by
  obtain ⟨c, _, _, heq⟩ := redditSearchResults_from_strict h
  subst heq; rfl

/-- The per-hit HackerNews conversion, when it keeps a hit, stamps it with the
shared wall-clock `now` and links to the hit's item page; it never inspects
`createdAt`. -/
theorem hnConvertHit_shape {keyword : String} {now : Int} {hit : HNHit}
    {r : SearchResult} (h : hnConvertHit keyword now hit = some r) :
    r.timestamp = now ∧
      r.url = "https://news.ycombinator.com/item?id=" ++ hit.objectID := by
  rw [hnConvertHit] at h
  simp only at h
  repeat' split at h
  all_goals cases h
  all_goals exact ⟨rfl, rfl⟩

/-- Every result kept by the HackerNews conversion loop is stamped with the
shared wall-clock `now` and links to the item page of some hit of the
response. -/
theorem hnSearchResults_shape {keyword : String} {now : Int}
    {hits : List HNHit} {r : SearchResult}
    (h : r ∈ hnSearchResults keyword now hits) :
    r.timestamp = now ∧
      ∃ hit ∈ hits, r.url = "https://news.ycombinator.com/item?id=" ++ hit.objectID := by
  rw [hnSearchResults] at h
  obtain ⟨hit, hmem, hconv⟩ := List.mem_filterMap.mp h
  obtain ⟨ht, hu⟩ := hnConvertHit_shape hconv
  exact ⟨ht, hit, hmem, hu⟩

/-! ## Claim C2 — dedup key of the SQLite storer -/

/-- C2: the claim "after `Save(r)` succeeds, `Exists(r.platform, r.url)`
returns true" fails on `SQLiteStorer`.  The `search_results` table declares
`URL TEXT PRIMARY KEY` and `Save` uses `ON CONFLICT(URL) DO NOTHING`, so the
dedup key it enforces is the URL alone, while `Exists` (and the spec, and the
DynamoDB storer) key by `(platform, url)`.  With a row `("Reddit",
"https://x")` already present, saving a `"HackerNews"` result with the same
URL succeeds as a silent no-op and `Exists("HackerNews", "https://x")` stays
false. -/
theorem sqlite_dedup_key_bug :
    sqliteSave [⟨"Reddit", "k", "t0", "https://x", 5⟩]
        ⟨"HackerNews", "k", "t", "https://x", 10, ""⟩ =
      [⟨"Reddit", "k", "t0", "https://x", 5⟩] ∧
    sqliteExistsRes
        (sqliteSave [⟨"Reddit", "k", "t0", "https://x", 5⟩]
          ⟨"HackerNews", "k", "t", "https://x", 10, ""⟩)
        "HackerNews" "https://x" = false ∧
    sqliteExistsRes [(⟨"Reddit", "k", "t0", "https://x", 5⟩ : SqliteRow)]
        "Reddit" "https://x" = true := by
  refine ⟨by decide, by decide, by decide⟩

/-! ## Claim C7 — strict watermark filtering -/

/-- C7 is false as stated: a concrete HackerNews search with `sinceEpoch = 5`
executed at wall-clock time `0` (the `Search` body never compares its hits
against `sinceEpoch`; `sinceEpoch` only enters the request URL) emits a result
whose `Timestamp` is `0`, not strictly greater than `5`. -/
theorem searcher_strict_filter_counterexample :
    ¬(∀ r ∈ hnSearchResults "k" 0 [⟨"t", "", "1", 100, "", "", "story"⟩],
        5 < r.timestamp) := by
  decide

/-- C7 amended: the Bluesky searcher returns only results whose `Timestamp`
(the post creation time) is strictly greater than `sinceEpoch`, in every
branch of `Search`; the Reddit searcher keeps a post only when its creation
time is strictly greater than `sinceEpoch` but stamps the emitted `Timestamp`
with the search wall-clock time; the HackerNews searcher applies no local
filter — it delegates the strictly-newer condition to the upstream API via
the `created_at_i>sinceEpoch` query parameter, and whenever the upstream
honors that filter, every emitted result corresponds to a strictly-newer
hit. -/
theorem searcher_strict_filter_amended :
    (∀ (tok kw : String) (since : Int) (resp : BskyResponse)
        (rs : List SearchResult) (r : SearchResult),
        bskySearch tok kw since resp = .ok rs → r ∈ rs → since < r.timestamp) ∧
    (∀ (kw : String) (since now : Int) (children : List RedditPost)
        (r : SearchResult), r ∈ redditSearchResults kw since now children →
        ∃ c ∈ children, since < c.createdUtc ∧ r = redditConvert kw now c) ∧
    (∀ (kw : String) (since : Int),
        hnApiURL kw since =
          "https://hn.algolia.com/api/v1/search_by_date?query=" ++ kw ++
            "&tags=(story,comment)&numericFilters=created_at_i>" ++ toString since) ∧
    (∀ (kw : String) (since now : Int) (hits : List HNHit) (r : SearchResult),
        (∀ hit ∈ hits, since < hit.createdAt) →
        r ∈ hnSearchResults kw now hits →
        ∃ hit ∈ hits, since < hit.createdAt ∧
          r.url = "https://news.ycombinator.com/item?id=" ++ hit.objectID) := by
  refine ⟨?_, ?_, ?_, ?_⟩
  · intro tok kw since resp rs r hok hr
    rw [bskySearch] at hok
    by_cases h1 : tok == ""
    · rw [if_pos h1] at hok
      cases hok; simp at hr
    · rw [if_neg h1] at hok
      by_cases h2 : resp.status == 429
      · rw [if_pos h2] at hok; cases hok; simp at hr
      · rw [if_neg h2] at hok
        by_cases h3 : resp.status != 200
        · rw [if_pos h3] at hok; cases hok; simp at hr
        · rw [if_neg h3] at hok
          by_cases h4 : !resp.decoded
          · rw [if_pos h4] at hok; cases hok; simp at hr
          · rw [if_neg h4] at hok
            cases hok
            exact bskyConvert_timestamp_gt hr
  · intro kw since now children r h
    exact redditSearchResults_from_strict h
  · intro kw since; rfl
  · intro kw since now hits r hall hr
    obtain ⟨_, hit, hhit, hurl⟩ := hnSearchResults_shape hr
    exact ⟨hit, hhit, hall hit hhit, hurl⟩

/-- Closed instantiation of `searcher_strict_filter_amended` at concrete
inputs discharging each hypothesis. -/
theorem searcher_strict_filter_amended_witness :
    (5 : Int) < ((⟨"Bluesky", "k", "Post by a", "u", 9, ""⟩ : SearchResult)).timestamp ∧
    ∃ c ∈ [(⟨"t", "/p", 9⟩ : RedditPost)],
      (5 : Int) < c.createdUtc ∧
        redditConvert "k" 3 ⟨"t", "/p", 9⟩ = redditConvert "k" 3 c := by
  constructor
  · exact searcher_strict_filter_amended.1 "tok" "k" 5
      ⟨200, true, [⟨"u", "a", some 9, "x"⟩]⟩
      (bskyConvert "k" 5 [⟨"u", "a", some 9, "x"⟩]) _
      (by rfl) (by decide)
  · exact searcher_strict_filter_amended.2.1 "k" 5 3
      [⟨"t", "/p", 9⟩] (redditConvert "k" 3 ⟨"t", "/p", 9⟩)
      (by decide)

/-! ## Claim C8 — retry then degrade on rate limiting -/

/-- C8: if every authentication attempt during `NewBlueskySearcher` is
rate-limited, construction sleeps `5*(i+1)` seconds after attempt `i`
(`base * attempt` with base 5, attempts capped at `bskyMaxRetries = 3`) and
still returns a searcher — with an empty access token — rather than an error;
that searcher's `Search` returns an empty list with no error. -/
theorem bsky_degraded_construction (auth : Nat → AuthResult)
    (h : ∀ i, i < bskyMaxRetries → auth i = .rateLimited) :
    newBlueskySearcher auth = .ok ("", [5, 10, 15]) ∧
    ∀ (keyword : String) (since : Int) (resp : BskyResponse),
      bskySearch "" keyword since resp = .ok [] := by
  constructor
  · have h0 := h 0 (by decide)
    have h1 := h 1 (by decide)
    have h2 := h 2 (by decide)
    simp [newBlueskySearcher, bskyMaxRetries, bskyAuthLoop, h0, h1, h2]
  · intro keyword since resp
    simp [bskySearch]

/-- Closed instantiation of `bsky_degraded_construction` with an
always-rate-limited authenticator. -/
theorem bsky_degraded_construction_witness :
    newBlueskySearcher (fun _ => .rateLimited) = .ok ("", [5, 10, 15]) ∧
    ∀ (keyword : String) (since : Int) (resp : BskyResponse),
      bskySearch "" keyword since resp = .ok [] :=
  bsky_degraded_construction (fun _ => .rateLimited) (fun _ _ => rfl)

/-! ## Claim C10 — wall-clock timestamps on HackerNews and Reddit -/

/-- C10: every result emitted by the HackerNews and Reddit searchers carries
`Timestamp = time.Now().Unix()` (the wall-clock time of the `Search` call),
while the strictly-newer condition is applied to the post's creation time —
locally for Reddit (`int64(post.CreatedAt) > afterEpochSecs`) and via the
`created_at_i>` request parameter for HackerNews; the concrete Reddit run at
the end has a post created at `10` kept for `sinceEpoch = 5` yet emitted with
`Timestamp = 3`, exhibiting the difference between the two fields. -/
theorem hn_reddit_timestamp_semantics :
    (∀ (kw : String) (now : Int) (hits : List HNHit) (r : SearchResult),
        r ∈ hnSearchResults kw now hits → r.timestamp = now) ∧
    (∀ (kw : String) (since now : Int) (children : List RedditPost)
        (r : SearchResult),
        r ∈ redditSearchResults kw since now children →
        r.timestamp = now ∧ ∃ c ∈ children, since < c.createdUtc) ∧
    (∀ (kw : String) (since : Int), ∃ pre : String,
        hnApiURL kw since = pre ++ ("created_at_i>" ++ toString since)) ∧
    redditSearchResults "k" 5 3 [⟨"t", "/p", 10⟩] =
      [{ platform := "Reddit", keyword := "k", title := "t",
         url := "https://www.reddit.com/p", timestamp := 3, content := "" }] := by
  refine ⟨?_, ?_, ?_, by decide⟩
  · intro kw now hits r h
    exact (hnSearchResults_shape h).1
  · intro kw since now children r h
    obtain ⟨c, hc, hlt, heq⟩ := redditSearchResults_from_strict h
    exact ⟨by subst heq; rfl, c, hc, hlt⟩
  · intro kw since
    refine ⟨"https://hn.algolia.com/api/v1/search_by_date?query=" ++ kw ++
      "&tags=(story,comment)&numericFilters=", ?_⟩
    rw [hnApiURL]
    simp only [String.append_assoc]
    rfl

/-- Closed instantiation of `hn_reddit_timestamp_semantics` at a concrete
Reddit run: a post created at `10`, searched with `sinceEpoch = 5` at
wall-clock `3`, is kept and stamped with `3`. -/
theorem hn_reddit_timestamp_semantics_witness :
    (redditConvert "k" 3 ⟨"t", "/p", 10⟩).timestamp = 3 ∧
      ∃ c ∈ [(⟨"t", "/p", 10⟩ : RedditPost)], (5 : Int) < c.createdUtc :=
  hn_reddit_timestamp_semantics.2.1 "k" 5 3 [⟨"t", "/p", 10⟩]
    (redditConvert "k" 3 ⟨"t", "/p", 10⟩) (by decide)

/-! ## Lemmas about `Bot.Run` over arbitrary collaborators -/

/-- The step `processResult` records the result it was given. -/
theorem processResult_result {σ : Type} (ops : StorerOps σ) (ns : List Notifier)
    (s : σ) (tick : Nat) (r : SearchResult) :
    (processResult ops ns s tick r).2.2.result = r := by
  rw [processResult]
  repeat' split
  all_goals rfl

/-- A result step either records no notifications or was a fresh save. -/
theorem processResult_notifications_or_saved {σ : Type} (ops : StorerOps σ)
    (ns : List Notifier) (s : σ) (tick : Nat) (r : SearchResult) :
    (processResult ops ns s tick r).2.2.notifications = [] ∨
      ((processResult ops ns s tick r).2.2.outcome = .saved ∧
        (processResult ops ns s tick r).2.2.notifications = notifyLoop ns r 0) := by
  rw [processResult]
  repeat' split
  · exact .inl rfl
  · exact .inl rfl
  · exact .inl rfl
  · exact .inr ⟨rfl, rfl⟩

/-- A result step advances the tick by at least one collaborator call. -/
theorem processResult_tick_ge {σ : Type} (ops : StorerOps σ) (ns : List Notifier)
    (s : σ) (tick : Nat) (r : SearchResult) :
    tick + 1 ≤ (processResult ops ns s tick r).2.1 := by
  rw [processResult]
  repeat' split
  all_goals simp
  all_goals omega

/-- The inner loop of `Bot.Run` produces one trace per search result, in
order, whatever the storer and the notifiers do: no per-result failure aborts
the processing of subsequent results. -/
theorem processList_results {σ : Type} (ops : StorerOps σ) (ns : List Notifier) :
    ∀ (s : σ) (tick : Nat) (rs : List SearchResult),
      ((processList ops ns s tick rs).2.2).map (·.result) = rs := by
  intro s tick rs
  induction rs generalizing s tick with
  | nil => rfl
  | cons r rest ih =>
    simp only [processList, List.map_cons]
    rw [processResult_result, ih]

/-- Processing a result list advances the tick at least once per result. -/
theorem processList_tick_ge {σ : Type} (ops : StorerOps σ) (ns : List Notifier) :
    ∀ (s : σ) (tick : Nat) (rs : List SearchResult),
      tick + rs.length ≤ (processList ops ns s tick rs).2.1 := by
  intro s tick rs
  induction rs generalizing s tick with
  | nil => simp [processList]
  | cons r rest ih =>
    simp only [processList, List.length_cons]
    have h1 := processResult_tick_ge ops ns s tick r
    have h2 := ih (processResult ops ns s tick r).1 (processResult ops ns s tick r).2.1
    omega

/-- Every result trace of the inner loop is the trace of some `processResult`
step. -/
theorem rtrace_from_processResult {σ : Type} (ops : StorerOps σ)
    (ns : List Notifier) :
    ∀ (s : σ) (tick : Nat) (rs : List SearchResult) (rt : RTrace),
      rt ∈ (processList ops ns s tick rs).2.2 →
      ∃ (s0 : σ) (t0 : Nat) (r : SearchResult),
        rt = (processResult ops ns s0 t0 r).2.2 := by
  intro s tick rs
  induction rs generalizing s tick with
  | nil => intro rt h; simp [processList] at h
  | cons r rest ih =>
    intro rt h
    simp only [processList, List.mem_cons] at h
    rcases h with heq | hrest
    · exact ⟨s, tick, r, heq⟩
    · exact ih _ _ rt hrest

/-- Every turn trace of the outer loop is the trace of some `runTurn` on a
configured searcher. -/
theorem ttrace_from_runTurn {σ : Type} (ops : StorerOps σ) (ns : List Notifier)
    (ck : Nat → Int) (kw : String) :
    ∀ (srs : List Searcher) (s : σ) (tick : Nat) (t : TTrace),
      t ∈ (runLoop ops ns ck kw srs s tick).2.2 →
      ∃ (sr : Searcher) (s0 : σ) (t0 : Nat),
        sr ∈ srs ∧ t = (runTurn ops ns ck kw sr s0 t0).2.2 := by
  intro srs
  induction srs with
  | nil => intro s tick t h; simp [runLoop] at h
  | cons sr rest ih =>
    intro s tick t h
    simp only [runLoop, List.mem_cons] at h
    rcases h with heq | hrest
    · exact ⟨sr, s, tick, List.mem_cons_self sr rest, heq⟩
    · obtain ⟨sr1, s0, t0, hm, he⟩ := ih _ _ t hrest
      exact ⟨sr1, s0, t0, List.mem_cons_of_mem sr hm, he⟩

/-- The outer loop visits every configured searcher exactly once, in
configuration order, whatever its collaborators do. -/
theorem runLoop_platforms {σ : Type} (ops : StorerOps σ) (ns : List Notifier)
    (ck : Nat → Int) (kw : String) :
    ∀ (srs : List Searcher) (s : σ) (tick : Nat),
      ((runLoop ops ns ck kw srs s tick).2.2).map (·.platform) =
        srs.map (·.platform) := by
  intro srs
  induction srs with
  | nil => intro s tick; rfl
  | cons sr rest ih =>
    intro s tick
    simp only [runLoop, List.map_cons]
    have hplat : (runTurn ops ns ck kw sr s tick).2.2.platform = sr.platform := by
      simp only [runTurn]
      repeat' split
      all_goals rfl
    rw [hplat, ih]

/-- A result step whose trace says `saved` ran the full notifier fan-out. -/
theorem processResult_saved_shape {σ : Type} (ops : StorerOps σ)
    (ns : List Notifier) (s : σ) (tick : Nat) (r : SearchResult)
    (h : (processResult ops ns s tick r).2.2.outcome = .saved) :
    (processResult ops ns s tick r).2.2.notifications = notifyLoop ns r 0 := by
  cases hex : ops.existsRes s r.platform r.url with
  | error e => rw [processResult, hex] at h; simp at h
  | ok b =>
    cases b with
    | true => rw [processResult, hex] at h; simp at h
    | false =>
      cases hsv : ops.save s r with
      | error e => rw [processResult, hex, hsv] at h; simp at h
      | ok s1 => rw [processResult, hex, hsv]

/-- A result step whose trace does not say `saved` invoked no notifier. -/
theorem processResult_not_saved_no_notify {σ : Type} (ops : StorerOps σ)
    (ns : List Notifier) (s : σ) (tick : Nat) (r : SearchResult)
    (h : (processResult ops ns s tick r).2.2.outcome ≠ .saved) :
    (processResult ops ns s tick r).2.2.notifications = [] := by
  rcases processResult_notifications_or_saved ops ns s tick r with h1 | ⟨h1, _⟩
  · exact h1
  · exact absurd h1 h

/-! ## Lemmas about `Bot.Run` over the ideal storer -/

/-- Evaluating `lookupSaved` on a freshly inserted entry. -/
theorem lookupSaved_cons (pl ur : String) (v : SearchResult)
    (l : List ((String × String) × SearchResult)) (p u : String) :
    lookupSaved (((pl, ur), v) :: l) p u =
      if pl == p && ur == u then some v else lookupSaved l p u := by
  cases h : (pl == p && ur == u) with
  | true => simp [lookupSaved, List.find?_cons, h]
  | false => simp [lookupSaved, List.find?_cons, h]

/-- Evaluating `getMark` on a freshly inserted watermark. -/
theorem getMark_cons (q : String) (v : Int) (l : List (String × Int)) (p : String) :
    getMark ((q, v) :: l) p = if q == p then v else getMark l p := by
  cases h : (q == p) with
  | true => simp [getMark, List.find?_cons, h]
  | false => simp [getMark, List.find?_cons, h]

/-- The watermark read of `idealStorer`, as an equation. -/
theorem idealStorer_get (s : IdealStore) (p : String) :
    idealStorer.getLastSearchTime s p = .ok (getMark s.marks p) := rfl

/-- The existence check of `idealStorer`, as an equation. -/
theorem idealStorer_exists (s : IdealStore) (p u : String) :
    idealStorer.existsRes s p u = .ok (lookupSaved s.saved p u).isSome := rfl

/-- The save of `idealStorer`, as an equation. -/
theorem idealStorer_save (s : IdealStore) (r : SearchResult) :
    idealStorer.save s r =
      .ok { s with saved := ((r.platform, r.url), r) :: s.saved } := rfl

/-- The watermark write of `idealStorer`, as an equation. -/
theorem idealStorer_set (s : IdealStore) (p : String) (v : Int) :
    idealStorer.setLastSearchTime s p v =
      .ok { s with marks := (p, v) :: s.marks } := rfl

/-- A result step of the ideal storer never removes or modifies a dedup
record: an entry present before the step is present, unchanged, after it. -/
theorem processResult_preserves_saved (ns : List Notifier) (s : IdealStore)
    (tick : Nat) (r : SearchResult) (p u : String) (v : SearchResult)
    (h : lookupSaved s.saved p u = some v) :
    lookupSaved (processResult idealStorer ns s tick r).1.saved p u = some v := by
  cases hb : (lookupSaved s.saved r.platform r.url).isSome with
  | true => simpa [processResult, idealStorer, hb] using h
  | false =>
    simp only [processResult, idealStorer, hb]
    rw [lookupSaved_cons]
    have hf : (r.platform == p && r.url == u) = false := by
      by_contra hx
      have hx1 : (r.platform == p && r.url == u) = true := by
        cases hy : (r.platform == p && r.url == u) <;> simp_all
      have hp : r.platform = p := by
        have := (Bool.and_eq_true _ _).mp hx1
        exact eq_of_beq this.1
      have hu : r.url = u := by
        have := (Bool.and_eq_true _ _).mp hx1
        exact eq_of_beq this.2
      rw [hp, hu, h] at hb
      simp at hb
    rw [hf]
    simpa using h

/-- The inner loop preserves existing dedup records. -/
theorem processList_preserves_saved (ns : List Notifier) :
    ∀ (s : IdealStore) (tick : Nat) (rs : List SearchResult) (p u : String)
      (v : SearchResult), lookupSaved s.saved p u = some v →
      lookupSaved (processList idealStorer ns s tick rs).1.saved p u = some v := by
  intro s tick rs
  induction rs generalizing s tick with
  | nil => intro p u v h; exact h
  | cons r rest ih =>
    intro p u v h
    simp only [processList]
    exact ih _ _ p u v (processResult_preserves_saved ns s tick r p u v h)

/-- A whole turn preserves existing dedup records. -/
theorem runTurn_preserves_saved (ns : List Notifier) (ck : Nat → Int)
    (kw : String) (sr : Searcher) (s : IdealStore) (tick : Nat) (p u : String)
    (v : SearchResult) (h : lookupSaved s.saved p u = some v) :
    lookupSaved (runTurn idealStorer ns ck kw sr s tick).1.saved p u = some v := by
  simp only [runTurn, idealStorer]
  cases hsr : sr.search kw (getMark s.marks sr.platform) with
  | error e => simpa using h
  | ok results =>
    simp only
    exact processList_preserves_saved ns s (tick + 2) results p u v h

/-- A whole run preserves existing dedup records. -/
theorem runLoop_preserves_saved (ns : List Notifier) (ck : Nat → Int)
    (kw : String) :
    ∀ (srs : List Searcher) (s : IdealStore) (tick : Nat) (p u : String)
      (v : SearchResult), lookupSaved s.saved p u = some v →
      lookupSaved (runLoop idealStorer ns ck kw srs s tick).1.saved p u = some v := by
  intro srs
  induction srs with
  | nil => intro s tick p u v h; exact h
  | cons sr rest ih =>
    intro s tick p u v h
    simp only [runLoop]
    exact ih _ _ p u v (runTurn_preserves_saved ns ck kw sr s tick p u v h)

/-- Every entry of the notifier fan-out carries the result it was given. -/
theorem notifyLoop_result (r : SearchResult) :
    ∀ (ns : List Notifier) (i : Nat) (en : NotifyEntry),
      en ∈ notifyLoop ns r i → en.result = r := by
  intro ns
  induction ns with
  | nil => intro i en h; simp [notifyLoop] at h
  | cons n rest ih =>
    intro i en h
    simp only [notifyLoop, List.mem_cons] at h
    rcases h with heq | hrest
    · subst heq; rfl
    · exact ih _ en hrest

/-- The notifier fan-out contains an invocation for every configured
notifier index, whatever the other notifiers returned. -/
theorem notifyLoop_mem (r : SearchResult) :
    ∀ (ns : List Notifier) (i j : Nat), j < ns.length →
      ∃ b, (⟨i + j, r, b⟩ : NotifyEntry) ∈ notifyLoop ns r i := by
  intro ns
  induction ns with
  | nil => intro i j h; simp at h
  | cons n rest ih =>
    intro i j h
    cases j with
    | zero => exact ⟨_, List.mem_cons_self _ _⟩
    | succ j1 =>
      obtain ⟨b, hb⟩ := ih (i + 1) j1 (by simpa using Nat.lt_of_succ_lt_succ h)
      refine ⟨b, ?_⟩
      simp only [notifyLoop, List.mem_cons]
      right
      have harith : i + (j1 + 1) = (i + 1) + j1 := by omega
      rw [harith]
      exact hb

/-- A notifier invocation in a result step happens only for a result whose
dedup key was absent from the store when the step began. -/
theorem processResult_notify_absent (ns : List Notifier) (s : IdealStore)
    (tick : Nat) (r : SearchResult) (en : NotifyEntry)
    (h : en ∈ (processResult idealStorer ns s tick r).2.2.notifications) :
    lookupSaved s.saved en.result.platform en.result.url = none := by
  cases hb : (lookupSaved s.saved r.platform r.url).isSome with
  | true => simp [processResult, idealStorer, hb] at h
  | false =>
    simp only [processResult, idealStorer, hb] at h
    have hres := notifyLoop_result r ns 0 en h
    rw [hres]
    cases hlk : lookupSaved s.saved r.platform r.url with
    | none => rfl
    | some v => rw [hlk] at hb; simp at hb

/-- A notifier invocation in the inner loop happens only for a result whose
dedup key was absent from the store when the loop began. -/
theorem processList_notify_absent (ns : List Notifier) :
    ∀ (s : IdealStore) (tick : Nat) (rs : List SearchResult) (en : NotifyEntry),
      en ∈ ((processList idealStorer ns s tick rs).2.2).flatMap (·.notifications) →
      lookupSaved s.saved en.result.platform en.result.url = none := by
  intro s tick rs
  induction rs generalizing s tick with
  | nil => intro en h; simp [processList] at h
  | cons r rest ih =>
    intro en h
    simp only [processList, List.flatMap_cons, List.mem_append] at h
    rcases h with hhead | hrest
    · exact processResult_notify_absent ns s tick r en hhead
    · have h1 := ih _ _ en hrest
      cases hlk : lookupSaved s.saved en.result.platform en.result.url with
      | none => rfl
      | some v =>
        have h2 := processResult_preserves_saved ns s tick r
          en.result.platform en.result.url v hlk
        rw [h2] at h1
        cases h1

/-- A notifier invocation in a turn happens only for a result whose dedup key
was absent from the store when the turn began. -/
theorem runTurn_notify_absent (ns : List Notifier) (ck : Nat → Int)
    (kw : String) (sr : Searcher) (s : IdealStore) (tick : Nat)
    (en : NotifyEntry)
    (h : en ∈ turnNotifications (runTurn idealStorer ns ck kw sr s tick).2.2) :
    lookupSaved s.saved en.result.platform en.result.url = none := by
  simp only [runTurn, idealStorer] at h
  cases hsr : sr.search kw (getMark s.marks sr.platform) with
  | error e =>
    rw [hsr] at h
    simp [turnNotifications, resultTraces] at h
  | ok results =>
    rw [hsr] at h
    cases hst : idealStorer.setLastSearchTime
        (processList idealStorer ns s (tick + 2) results).1 sr.platform
        (ck (processList idealStorer ns s (tick + 2) results).2.1) with
    | error e => cases hst
    | ok s2 =>
      simp only [turnNotifications, resultTraces] at h
      exact processList_notify_absent ns s (tick + 2) results en h

/-- A notifier invocation in a run happens only for a result whose dedup key
was absent from the store when the run began. -/
theorem runLoop_notify_absent (ns : List Notifier) (ck : Nat → Int)
    (kw : String) :
    ∀ (srs : List Searcher) (s : IdealStore) (tick : Nat) (en : NotifyEntry),
      en ∈ ((runLoop idealStorer ns ck kw srs s tick).2.2).flatMap turnNotifications →
      lookupSaved s.saved en.result.platform en.result.url = none := by
  intro srs
  induction srs with
  | nil => intro s tick en h; simp [runLoop] at h
  | cons sr rest ih =>
    intro s tick en h
    simp only [runLoop, List.flatMap_cons, List.mem_append] at h
    rcases h with hhead | hrest
    · exact runTurn_notify_absent ns ck kw sr s tick en hhead
    · have h1 := ih _ _ en hrest
      cases hlk : lookupSaved s.saved en.result.platform en.result.url with
      | none => rfl
      | some v =>
        have h2 := runTurn_preserves_saved ns ck kw sr s tick
          en.result.platform en.result.url v hlk
        rw [h2] at h1
        cases h1

/-- After the inner loop, a result whose trace says `saved` is retrievable
from the store under its dedup key, unmodified. -/
theorem processList_saved_persisted (ns : List Notifier) :
    ∀ (s : IdealStore) (tick : Nat) (rs : List SearchResult) (rt : RTrace),
      rt ∈ (processList idealStorer ns s tick rs).2.2 → rt.outcome = .saved →
      lookupSaved (processList idealStorer ns s tick rs).1.saved
        rt.result.platform rt.result.url = some rt.result := by
  intro s tick rs
  induction rs generalizing s tick with
  | nil => intro rt h _; simp [processList] at h
  | cons r rest ih =>
    intro rt h hsv
    simp only [processList, List.mem_cons] at h ⊢
    rcases h with heq | hrest
    · subst heq
      cases hb : (lookupSaved s.saved r.platform r.url).isSome with
      | true => simp [processResult, idealStorer, hb] at hsv
      | false =>
        simp only [processResult, idealStorer, hb] at hsv ⊢
        have hhead : lookupSaved (((r.platform, r.url), r) :: s.saved)
            r.platform r.url = some r := by
          rw [lookupSaved_cons]
          simp
        exact processList_preserves_saved ns _ _ rest r.platform r.url r hhead
    · exact ih _ _ rt hrest hsv

/-- After a turn, a result whose trace says `saved` is retrievable from the
store under its dedup key, unmodified. -/
theorem runTurn_saved_persisted (ns : List Notifier) (ck : Nat → Int)
    (kw : String) (sr : Searcher) (s : IdealStore) (tick : Nat) (rt : RTrace)
    (h : rt ∈ resultTraces (runTurn idealStorer ns ck kw sr s tick).2.2)
    (hsv : rt.outcome = .saved) :
    lookupSaved (runTurn idealStorer ns ck kw sr s tick).1.saved
      rt.result.platform rt.result.url = some rt.result := by
  simp only [runTurn, idealStorer] at h ⊢
  cases hsr : sr.search kw (getMark s.marks sr.platform) with
  | error e =>
    rw [hsr] at h
    simp [resultTraces] at h
  | ok results =>
    rw [hsr] at h
    simp only [resultTraces] at h
    exact processList_saved_persisted ns s (tick + 2) results rt h hsv

/-- After a run, a result whose trace says `saved` is retrievable from the
store under its dedup key, unmodified. -/
theorem runLoop_saved_persisted (ns : List Notifier) (ck : Nat → Int)
    (kw : String) :
    ∀ (srs : List Searcher) (s : IdealStore) (tick : Nat) (t : TTrace)
      (rt : RTrace), t ∈ (runLoop idealStorer ns ck kw srs s tick).2.2 →
      rt ∈ resultTraces t → rt.outcome = .saved →
      lookupSaved (runLoop idealStorer ns ck kw srs s tick).1.saved
        rt.result.platform rt.result.url = some rt.result := by
  intro srs
  induction srs with
  | nil => intro s tick t rt h _ _; simp [runLoop] at h
  | cons sr rest ih =>
    intro s tick t rt h hrt hsv
    simp only [runLoop, List.mem_cons] at h ⊢
    rcases h with heq | hrest
    · subst heq
      have h1 := runTurn_saved_persisted ns ck kw sr s tick rt hrt hsv
      exact runLoop_preserves_saved ns ck kw rest _ _
        rt.result.platform rt.result.url rt.result h1
    · exact ih _ _ t rt hrest hrt hsv

/-- A result step of the ideal storer never touches the watermark index. -/
theorem processResult_marks (ns : List Notifier) (s : IdealStore) (tick : Nat)
    (r : SearchResult) :
    (processResult idealStorer ns s tick r).1.marks = s.marks := by
  cases hb : (lookupSaved s.saved r.platform r.url).isSome with
  | true => simp [processResult, idealStorer, hb]
  | false => simp [processResult, idealStorer, hb]

/-- The inner loop never touches the watermark index. -/
theorem processList_marks (ns : List Notifier) :
    ∀ (s : IdealStore) (tick : Nat) (rs : List SearchResult),
      (processList idealStorer ns s tick rs).1.marks = s.marks := by
  intro s tick rs
  induction rs generalizing s tick with
  | nil => rfl
  | cons r rest ih =>
    simp only [processList]
    rw [ih, processResult_marks]

/-- A turn keeps every platform's watermark at or above a bound `w0` when the
clock never goes below `w0`: the only write is `(platform, clock t)` for some
tick `t`. -/
theorem runTurn_mark_ge (ns : List Notifier) (ck : Nat → Int) (kw : String)
    (sr : Searcher) (s : IdealStore) (tick : Nat) (p : String) (w0 : Int)
    (hs : w0 ≤ getMark s.marks p) (hck : ∀ i, w0 ≤ ck i) :
    w0 ≤ getMark (runTurn idealStorer ns ck kw sr s tick).1.marks p := by
  simp only [runTurn, idealStorer_get]
  cases hsr : sr.search kw (getMark s.marks sr.platform) with
  | error e =>
    simp only [hsr]
    exact hs
  | ok results =>
    simp only [hsr, idealStorer_set]
    rw [getMark_cons]
    by_cases hp : (sr.platform == p) = true
    · rw [if_pos hp]
      exact hck _
    · rw [if_neg hp, processList_marks]
      exact hs

/-- A run keeps every platform's watermark at or above a bound `w0` when the
clock never goes below `w0`. -/
theorem runLoop_mark_ge (ns : List Notifier) (ck : Nat → Int) (kw : String) :
    ∀ (srs : List Searcher) (s : IdealStore) (tick : Nat) (p : String)
      (w0 : Int), w0 ≤ getMark s.marks p → (∀ i, w0 ≤ ck i) →
      w0 ≤ getMark (runLoop idealStorer ns ck kw srs s tick).1.marks p := by
  intro srs
  induction srs with
  | nil => intro s tick p w0 hs _; exact hs
  | cons sr rest ih =>
    intro s tick p w0 hs hck
    simp only [runLoop]
    exact ih _ _ p w0 (runTurn_mark_ge ns ck kw sr s tick p w0 hs hck) hck

/-- Every result trace in a turn is the trace of some `processResult` step. -/
theorem rtrace_of_runTurn {σ : Type} (ops : StorerOps σ) (ns : List Notifier)
    (ck : Nat → Int) (kw : String) (sr : Searcher) (s : σ) (t0 : Nat)
    (rt : RTrace) (h : rt ∈ resultTraces (runTurn ops ns ck kw sr s t0).2.2) :
    ∃ (s1 : σ) (t1 : Nat) (r : SearchResult),
      rt = (processResult ops ns s1 t1 r).2.2 := by
  cases hg : ops.getLastSearchTime s sr.platform with
  | error e =>
    simp only [runTurn, hg] at h
    simp [resultTraces] at h
  | ok last =>
    cases hs : sr.search kw last with
    | error e =>
      simp only [runTurn, hg, hs] at h
      simp [resultTraces] at h
    | ok results =>
      simp only [runTurn, hg, hs] at h
      cases hset : ops.setLastSearchTime (processList ops ns s (t0 + 2) results).1
          sr.platform (ck (processList ops ns s (t0 + 2) results).2.1) with
      | error e2 =>
        simp only [hset, resultTraces] at h
        exact rtrace_from_processResult ops ns _ _ results rt h
      | ok s2 =>
        simp only [hset, resultTraces] at h
        exact rtrace_from_processResult ops ns _ _ results rt h

/-- In a `processed` turn the watermark value written is the clock sampled at
the write tick, and that tick lies after the read, the search, and one tick
per processed result: the write happens after all results are handled. -/
theorem runTurn_processed_shape {σ : Type} (ops : StorerOps σ)
    (ns : List Notifier) (ck : Nat → Int) (kw : String) (sr : Searcher)
    (s : σ) (t0 : Nat) (rts : List RTrace) (wt : Nat) (v : Int) (wok : Bool)
    (he : (runTurn ops ns ck kw sr s t0).2.2.turn = .processed rts wt v wok) :
    v = ck wt ∧
      (runTurn ops ns ck kw sr s t0).2.2.startTick + 2 + rts.length ≤ wt := by
  cases hg : ops.getLastSearchTime s sr.platform with
  | error e => simp [runTurn, hg] at he
  | ok last =>
    cases hs : sr.search kw last with
    | error e => simp [runTurn, hg, hs] at he
    | ok results =>
      have hlen : ((processList ops ns s (t0 + 2) results).2.2).length =
          results.length := by
        have hmap := processList_results ops ns s (t0 + 2) results
        calc ((processList ops ns s (t0 + 2) results).2.2).length
            = (((processList ops ns s (t0 + 2) results).2.2).map (·.result)).length := by
              rw [List.length_map]
          _ = results.length := by rw [hmap]
      have hge := processList_tick_ge ops ns s (t0 + 2) results
      cases hset : ops.setLastSearchTime (processList ops ns s (t0 + 2) results).1
          sr.platform (ck (processList ops ns s (t0 + 2) results).2.1) with
      | error e2 =>
        simp only [runTurn, hg, hs, hset] at he ⊢
        simp only [TurnResult.processed.injEq] at he
        obtain ⟨h1, h2, h3, _⟩ := he
        subst h2
        subst h3
        subst h1
        exact ⟨rfl, by omega⟩
      | ok s2 =>
        simp only [runTurn, hg, hs, hset] at he ⊢
        simp only [TurnResult.processed.injEq] at he
        obtain ⟨h1, h2, h3, _⟩ := he
        subst h2
        subst h3
        subst h1
        exact ⟨rfl, by omega⟩

/-! ## Claim C1 — watermark write discipline -/

/-- C1 is false as stated on two counts, at concrete inputs.  First run: a
single searcher whose search fails — `Bot.Run` hits `continue` and writes no
watermark at all, where the claim demands a write "immediately if the search
failed".  Second run: a single searcher returning one fresh result, with
clock = tick: the watermark written is `4`, the wall-clock at the moment of
the `SetLastSearchTime` call after processing, not the wall-clock `0` at
which the turn began. -/
theorem run_watermark_claim_false :
    ((botRun (⟨[⟨"X", fun _ _ => .error "boom"⟩], idealStorer, [],
        fun n => (n : Int)⟩ : BotEnv IdealStore) "k" ⟨[], []⟩).turns).map
        turnWriteCount = [0] ∧
    (botRun (⟨[⟨"X", fun _ _ => .ok [⟨"X", "k", "t", "u", 7, ""⟩]⟩],
        idealStorer, [], fun n => (n : Int)⟩ : BotEnv IdealStore) "k"
        ⟨[], []⟩).turns =
      [⟨"X", 0, .processed [⟨⟨"X", "k", "t", "u", 7, ""⟩, .saved, []⟩] 4 4 true⟩] ∧
    (0 : Int) < 4 := by
  refine ⟨by decide, by decide, by decide⟩

/-- C1 amended: a turn attempts exactly one watermark write when the
watermark read and the search both succeed — after all of that platform's
results are processed, with the wall-clock value sampled at the moment of the
write (at least `2 + #results` collaborator calls after the turn began) — and
no watermark write at all when the read or the search fails. -/
theorem run_watermark_write_policy (σ : Type) (env : BotEnv σ) (kw : String)
    (s : σ) (t : TTrace) (ht : t ∈ (botRun env kw s).turns) :
    (∀ e, t.turn = .readFailed e → turnWriteCount t = 0) ∧
    (∀ e, t.turn = .searchFailed e → turnWriteCount t = 0) ∧
    (∀ rts wt v wok, t.turn = .processed rts wt v wok →
      turnWriteCount t = 1 ∧ v = env.clock wt ∧
        t.startTick + 2 + rts.length ≤ wt) := by
  refine ⟨fun e he => by simp [turnWriteCount, he],
          fun e he => by simp [turnWriteCount, he],
          fun rts wt v wok he => ?_⟩
  obtain ⟨sr, s0, t0, _, heq⟩ :=
    ttrace_from_runTurn env.storer env.notifiers env.clock kw env.searchers s 0 t ht
  subst heq
  have h2 := runTurn_processed_shape env.storer env.notifiers env.clock kw
    sr s0 t0 rts wt v wok he
  exact ⟨by simp [turnWriteCount, he], h2.1, h2.2⟩

/-- Closed instantiation of `run_watermark_write_policy` on a one-searcher,
one-result run with clock = tick: the single turn writes once, value `4`
sampled at write tick `4`, after the turn-start tick `0`. -/
theorem run_watermark_write_policy_witness :
    turnWriteCount (⟨"X", 0, .processed
        [⟨⟨"X", "k", "t", "u", 7, ""⟩, .saved, []⟩] 4 4 true⟩ : TTrace) = 1 ∧
      (4 : Int) = (fun n => (n : Int)) 4 ∧
      (⟨"X", 0, .processed [⟨⟨"X", "k", "t", "u", 7, ""⟩, .saved, []⟩]
          4 4 true⟩ : TTrace).startTick + 2 + 1 ≤ 4 :=
  (run_watermark_write_policy IdealStore
    ⟨[⟨"X", fun _ _ => .ok [⟨"X", "k", "t", "u", 7, ""⟩]⟩], idealStorer, [],
      fun n => (n : Int)⟩ "k" ⟨[], []⟩
    ⟨"X", 0, .processed [⟨⟨"X", "k", "t", "u", 7, ""⟩, .saved, []⟩] 4 4 true⟩
    (by decide)).2.2
    [⟨⟨"X", "k", "t", "u", 7, ""⟩, .saved, []⟩] 4 4 true rfl

/-! ## Claim C3 — failure isolation -/

/-- C3: `botRun` is a total function with no failure path of its own — it
produces exactly one turn per configured searcher, in configuration order,
for every combination of storer, searcher and notifier behaviours (including
failing ones), and within a turn the inner loop produces exactly one trace
per search result: no per-platform or per-result failure aborts processing
of subsequent platforms or results. -/
theorem run_failure_isolation :
    (∀ (σ : Type) (env : BotEnv σ) (kw : String) (s : σ),
        ((botRun env kw s).turns).map (·.platform) =
          env.searchers.map (·.platform)) ∧
    (∀ (σ : Type) (ops : StorerOps σ) (ns : List Notifier) (s : σ)
        (tick : Nat) (rs : List SearchResult),
        ((processList ops ns s tick rs).2.2).map (·.result) = rs) :=
  ⟨fun _ env kw s =>
      runLoop_platforms env.storer env.notifiers env.clock kw env.searchers s 0,
    fun _ ops ns s tick rs => processList_results ops ns s tick rs⟩

/-! ## Claim C4 — save failure skips notification -/

/-- C4: whenever a result's `Save` fails, its trace records no notifier
invocation, and the inner loop still produces one trace per result (the next
results are processed); concretely, with a storer whose `Save` always fails,
a run over one fresh result invokes no notifier and leaves the result's key
still reported absent by a subsequent `Exists` check. -/
theorem run_save_failure_skips_notify :
    (∀ (σ : Type) (env : BotEnv σ) (kw : String) (s : σ) (t : TTrace)
        (rt : RTrace) (e : Err), t ∈ (botRun env kw s).turns →
        rt ∈ resultTraces t → rt.outcome = .saveFailed e →
        rt.notifications = []) ∧
    (∀ (σ : Type) (ops : StorerOps σ) (ns : List Notifier) (s : σ)
        (tick : Nat) (rs : List SearchResult),
        ((processList ops ns s tick rs).2.2).map (·.result) = rs) ∧
    runNotifications (botRun (⟨[⟨"X", fun _ _ => .ok [⟨"X", "k", "t", "u", 7, ""⟩]⟩],
        failSaveStorer, [fun _ => .ok ()], fun n => (n : Int)⟩ : BotEnv IdealStore)
        "k" ⟨[], []⟩) = [] ∧
    failSaveStorer.existsRes (botRun (⟨[⟨"X", fun _ _ => .ok [⟨"X", "k", "t", "u", 7, ""⟩]⟩],
        failSaveStorer, [fun _ => .ok ()], fun n => (n : Int)⟩ : BotEnv IdealStore)
        "k" ⟨[], []⟩).store "X" "u" = .ok false := by
  refine ⟨?_, fun _ ops ns s tick rs => processList_results ops ns s tick rs,
    by decide, by rfl⟩
  intro σ env kw s t rt e ht hrt hfail
  obtain ⟨sr, s0, t0, _, heqT⟩ :=
    ttrace_from_runTurn env.storer env.notifiers env.clock kw env.searchers s 0 t ht
  subst heqT
  obtain ⟨s1, t1, r, heqR⟩ :=
    rtrace_of_runTurn env.storer env.notifiers env.clock kw sr s0 t0 rt hrt
  subst heqR
  apply processResult_not_saved_no_notify
  rw [hfail]
  simp

/-- Closed instantiation of `run_save_failure_skips_notify` on the
always-failing-save storer. -/
theorem run_save_failure_skips_notify_witness :
    (⟨⟨"X", "k", "t", "u", 7, ""⟩, .saveFailed "save failed", []⟩ : RTrace).notifications
      = [] :=
  run_save_failure_skips_notify.1 IdealStore
    ⟨[⟨"X", fun _ _ => .ok [⟨"X", "k", "t", "u", 7, ""⟩]⟩], failSaveStorer,
      [fun _ => .ok ()], fun n => (n : Int)⟩ "k" ⟨[], []⟩
    ⟨"X", 0, .processed [⟨⟨"X", "k", "t", "u", 7, ""⟩, .saveFailed "save failed", []⟩]
      4 4 true⟩
    ⟨⟨"X", "k", "t", "u", 7, ""⟩, .saveFailed "save failed", []⟩ "save failed"
    (by decide) (by decide) (by decide)

/-! ## Claim C5 — no renotification on rerun -/

/-- C5: over the ideal storer, a second `Run` (whatever its searchers return,
in particular when no new upstream results appeared) invokes no notifier for
any result whose dedup key is already persisted when the second run starts —
in particular for everything persisted during the first run. -/
theorem run_no_renotify (ss1 ss2 : List Searcher) (ns1 ns2 : List Notifier)
    (ck1 ck2 : Nat → Int) (kw1 kw2 : String) (s0 : IdealStore) (p u : String)
    (en : NotifyEntry)
    (hsaved : (lookupSaved (botRun (⟨ss1, idealStorer, ns1, ck1⟩ :
        BotEnv IdealStore) kw1 s0).store.saved p u).isSome = true)
    (hmem : en ∈ runNotifications (botRun (⟨ss2, idealStorer, ns2, ck2⟩ :
        BotEnv IdealStore) kw2
        (botRun (⟨ss1, idealStorer, ns1, ck1⟩ : BotEnv IdealStore) kw1 s0).store)) :
    ¬(en.result.platform = p ∧ en.result.url = u) := by
  rintro ⟨hp, hu⟩
  simp only [runNotifications, botRun] at hmem
  simp only [botRun] at hsaved
  have h1 := runLoop_notify_absent ns2 ck2 kw2 ss2 _ 0 en hmem
  rw [hp, hu] at h1
  rw [h1] at hsaved
  cases hsaved

/-- Closed instantiation of `run_no_renotify`: the first run persists
`("X", "u")`; in the second run a notifier fires only for the fresh
`("X", "u2")` result, whose key differs from the persisted one. -/
theorem run_no_renotify_witness :
    ¬((⟨"X", "k", "t2", "u2", 8, ""⟩ : SearchResult).platform = "X" ∧
      (⟨"X", "k", "t2", "u2", 8, ""⟩ : SearchResult).url = "u") :=
  run_no_renotify [⟨"X", fun _ _ => .ok [⟨"X", "k", "t", "u", 7, ""⟩]⟩]
    [⟨"X", fun _ _ => .ok [⟨"X", "k", "t2", "u2", 8, ""⟩]⟩]
    [] [fun _ => .ok ()] (fun n => (n : Int)) (fun n => (n : Int)) "k" "k"
    ⟨[], []⟩ "X" "u" ⟨0, ⟨"X", "k", "t2", "u2", 8, ""⟩, true⟩
    (by decide) (by decide)

/-! ## Claim C6 — notifier isolation -/

/-- C6: over the ideal storer, for every newly saved result, every configured
notifier index appears among the recorded invocations for that result — a
notifier's failure does not block or skip the later ones — and the saved
record is still retrievable, unmodified, from the final store. -/
theorem run_notifier_isolation (ss : List Searcher) (ns : List Notifier)
    (ck : Nat → Int) (kw : String) (s0 : IdealStore) (t : TTrace) (rt : RTrace)
    (ht : t ∈ (botRun (⟨ss, idealStorer, ns, ck⟩ : BotEnv IdealStore) kw s0).turns)
    (hrt : rt ∈ resultTraces t) (hsv : rt.outcome = .saved) :
    (∀ j, j < ns.length →
      ∃ b, (⟨j, rt.result, b⟩ : NotifyEntry) ∈ rt.notifications) ∧
    lookupSaved (botRun (⟨ss, idealStorer, ns, ck⟩ :
        BotEnv IdealStore) kw s0).store.saved
      rt.result.platform rt.result.url = some rt.result := by
  constructor
  · intro j hj
    obtain ⟨sr, s2, t2, _, heqT⟩ :=
      ttrace_from_runTurn idealStorer ns ck kw ss s0 0 t ht
    subst heqT
    obtain ⟨s1, t1, r, heqR⟩ :=
      rtrace_of_runTurn idealStorer ns ck kw sr s2 t2 rt hrt
    subst heqR
    rw [processResult_result, processResult_saved_shape idealStorer ns s1 t1 r hsv]
    simpa using notifyLoop_mem r ns 0 j hj
  · exact runLoop_saved_persisted ns ck kw ss s0 0 t rt ht hrt hsv

/-- Closed instantiation of `run_notifier_isolation`: two notifiers, the
first always failing; both are invoked for the fresh result and the record
is in the final store. -/
theorem run_notifier_isolation_witness :
    (∀ j, j < ([fun _ => .error "boom", fun _ => .ok ()] : List Notifier).length →
      ∃ b, (⟨j, ⟨"X", "k", "t", "u", 7, ""⟩, b⟩ : NotifyEntry) ∈
        ([⟨0, ⟨"X", "k", "t", "u", 7, ""⟩, false⟩,
          ⟨1, ⟨"X", "k", "t", "u", 7, ""⟩, true⟩] : List NotifyEntry)) ∧
    lookupSaved (botRun (⟨[⟨"X", fun _ _ => .ok [⟨"X", "k", "t", "u", 7, ""⟩]⟩],
        idealStorer, [fun _ => .error "boom", fun _ => .ok ()],
        fun n => (n : Int)⟩ : BotEnv IdealStore) "k" ⟨[], []⟩).store.saved
      "X" "u" = some ⟨"X", "k", "t", "u", 7, ""⟩ :=
  run_notifier_isolation [⟨"X", fun _ _ => .ok [⟨"X", "k", "t", "u", 7, ""⟩]⟩]
    [fun _ => .error "boom", fun _ => .ok ()] (fun n => (n : Int)) "k" ⟨[], []⟩
    ⟨"X", 0, .processed [⟨⟨"X", "k", "t", "u", 7, ""⟩, .saved,
      [⟨0, ⟨"X", "k", "t", "u", 7, ""⟩, false⟩,
       ⟨1, ⟨"X", "k", "t", "u", 7, ""⟩, true⟩]⟩] 6 6 true⟩
    ⟨⟨"X", "k", "t", "u", 7, ""⟩, .saved,
      [⟨0, ⟨"X", "k", "t", "u", 7, ""⟩, false⟩,
       ⟨1, ⟨"X", "k", "t", "u", 7, ""⟩, true⟩]⟩
    (by decide) (by decide) (by decide)

/-! ## Claim C9 — watermark monotonicity -/

/-- C9 is false as stated: with the watermark for `"X"` stored as `100` and a
wall clock reading `5` (a clock set back between runs), a completed run
overwrites the watermark with `5 < 100` — `SetLastSearchTime` writes
`time.Now()` unconditionally, so monotonicity holds only while the clock
stays at or above the stored watermark. -/
theorem run_watermark_monotone_counterexample :
    getMark (botRun (⟨[⟨"X", fun _ _ => .ok []⟩], idealStorer, [],
        fun _ => (5 : Int)⟩ : BotEnv IdealStore) "k"
        ⟨[], [("X", 100)]⟩).store.marks "X" = 5 ∧
    getMark ([("X", 100)] : List (String × Int)) "X" = 100 ∧
    (5 : Int) < 100 := by
  refine ⟨by decide, by decide, by decide⟩

/-- C9 amended: provided every wall-clock sample during the run is at least
the watermark value observed for platform `p` at the start of the run (the
clock has not been set back past it), the watermark stored for `p` after a
completed run is at least the starting value. -/
theorem run_watermark_monotone_amended (ss : List Searcher) (ns : List Notifier)
    (ck : Nat → Int) (kw : String) (s0 : IdealStore) (p : String)
    (hck : ∀ i : Nat, getMark s0.marks p ≤ ck i) :
    getMark s0.marks p ≤
      getMark (botRun (⟨ss, idealStorer, ns, ck⟩ :
        BotEnv IdealStore) kw s0).store.marks p :=
  runLoop_mark_ge ns ck kw ss s0 0 p (getMark s0.marks p) le_rfl hck

/-- Closed instantiation of `run_watermark_monotone_amended` with a stored
watermark `3` and a clock fixed at `10`. -/
theorem run_watermark_monotone_amended_witness :
    getMark ((⟨[], [("X", 3)]⟩ : IdealStore)).marks "X" ≤
      getMark (botRun (⟨[⟨"X", fun _ _ => .ok []⟩], idealStorer, [],
        fun _ => (10 : Int)⟩ : BotEnv IdealStore) "k"
        ⟨[], [("X", 3)]⟩).store.marks "X" :=
  run_watermark_monotone_amended [⟨"X", fun _ _ => .ok []⟩] []
    (fun _ => (10 : Int)) "k" ⟨[], [("X", 3)]⟩ "X"
    (fun _ => by
      simpa using (show getMark ((⟨[], [("X", 3)]⟩ : IdealStore)).marks "X" ≤ (10 : Int)
        by decide))

end Grass
